import Mathlib

/-! Verification of the violation-detection and risk-scoring core of the
Cold-Chain-Shipment-Monitoring repository (src/main.py).

Numeric reading values and thresholds are modelled as rationals (`Rat`);
Python `None` becomes `Option`; the Python `dict` of sensor metadata becomes
a structure whose optional entries mirror the `meta.get(key, default)`
accesses of the source; `dict` lookups that can raise `KeyError`
(`meta[sc]` in `detect_violations`) are modelled by `Option`-returning
lookups, with `none` standing for the raised error.
-/

namespace ColdChain

/-- Severity levels produced by the classifier (`"normal"`, `"warning"`,
`"critical"` in the source). -/
inductive Severity
  | normal
  | warning
  | critical
deriving DecidableEq, Repr

/-- Sensor threshold metadata.  The source stores this as a JSON `dict`:
`meta["ideal_low"]` / `meta["ideal_high"]` are accessed directly (raising on
absence — the claims are restricted to well-formed threshold sets where the
relevant keys are present), while `warning_margin`, `spike_threshold` and
`min_voltage` are read through `meta.get(key, default)`, which we mirror with
`Option` fields and `getD`. -/
structure Meta where
  ideal_low : Rat := 0
  ideal_high : Rat := 0
  warning_margin : Option Rat := none
  spike_threshold : Option Rat := none
  min_voltage : Option Rat := none
deriving DecidableEq, Repr

/-- One telemetry reading: sensor code, optional value (Python `None` for a
missing/delayed reading), timestamp (modelled as a `Nat` token — only its
identity and relative order matter). -/
structure Reading where
  sensor_code : String
  value : Option Rat
  ts : Nat
deriving DecidableEq, Repr

/-- One detected violation, as built by `detect_violations` in the source. -/
structure Violation where
  sensor_code : String
  vtype : String
  severity : Severity
  message : String
  ts : Nat
deriving DecidableEq, Repr

/-- Catalog entry for one sensor (the parts of a `sensor_map` entry that
`detect_violations` reads: `sensor_type` and `metadata`). -/
structure CatEntry where
  sensor_type : String
  metadata : Meta
deriving DecidableEq, Repr

/-- The sensor catalog (`sensor_map` in the source): sensor code → entry. -/
abbrev Catalog := List (String × CatEntry)

/-- Embedding of `severity_for(meta, value, stype)` (src/main.py:162-170).

```python
def severity_for(meta, value, stype):
    if value is None: return "normal"
    if stype in ["core_temperature","surface_temperature","humidity"]:
        low,high=meta["ideal_low"],meta["ideal_high"]
        if value<low or value>high:
            return "critical" if abs(value-(low if value<low else high))>meta.get("warning_margin",1) else "warning"
    if stype=="shock": return "critical" if value>=meta.get("spike_threshold",2) else "normal"
    if stype=="battery_voltage": return "warning" if value<meta.get("min_voltage",3.3) else "normal"
    return "normal"
```

The Python function returns from inside the range branch only when the value
is out of range; otherwise control falls through to the `shock` /
`battery_voltage` tests (which fail for a range-typed sensor) and finally to
`return "normal"`, which the flattened conditional below reproduces. -/
def severity_for (meta : Meta) (value : Option Rat) (stype : String) : Severity :=
  match value with
  | none => Severity.normal
  | some v =>
    if (stype = "core_temperature" ∨ stype = "surface_temperature" ∨ stype = "humidity")
        ∧ (v < meta.ideal_low ∨ v > meta.ideal_high) then
      if |v - (if v < meta.ideal_low then meta.ideal_low else meta.ideal_high)|
          > meta.warning_margin.getD 1 then Severity.critical else Severity.warning
    else if stype = "shock" then
      if v ≥ meta.spike_threshold.getD 2 then Severity.critical else Severity.normal
    else if stype = "battery_voltage" then
      if v < meta.min_voltage.getD (33/10) then Severity.warning else Severity.normal
    else Severity.normal

/-- The per-group body of `detect_violations` (src/main.py:176-182): for each
reading of one sensor group, in order, emit a `missing` violation when the
value is absent, otherwise classify and emit a `threshold` violation when the
severity is not normal. -/
def detectGroup (sc : String) (e : CatEntry) : List Reading → List Violation
  | [] => []
  | r :: rest =>
    match r.value with
    | none =>
      ⟨sc, "missing", Severity.warning, "Missing reading", r.ts⟩ :: detectGroup sc e rest
    | some v =>
      let sev := severity_for e.metadata (some v) e.sensor_type
      if sev ≠ Severity.normal then
        ⟨sc, "threshold", sev, sc ++ " breach: " ++ toString v, r.ts⟩ :: detectGroup sc e rest
      else detectGroup sc e rest

/-- Insertion of a string into a sorted list of keys (ingredient of the
sorted group-key sequence that `df.groupby("sensor_code")` iterates). -/
def insertKey (s : String) : List String → List String
  | [] => [s]
  | t :: ts => if s < t then s :: t :: ts else t :: insertKey s ts

/-- Insertion sort on strings. -/
def sortKeys : List String → List String
  | [] => []
  | s :: ss => insertKey s (sortKeys ss)

/-- The group keys of `df.groupby("sensor_code")`: the distinct sensor codes
of the readings, in sorted order (pandas `groupby` sorts group keys). -/
def groupKeys (rs : List Reading) : List String :=
  sortKeys ((rs.map (fun r => r.sensor_code)).dedup)

/-- Processing of the sorted group keys by `detect_violations`
(src/main.py:174-183): for each key, look the sensor up in the catalog
(`meta[sc]` — a failed lookup models the `KeyError` the source raises) and
append the group's violations.  Row order inside a group is the input order
(pandas `groupby` preserves intra-group order). -/
def detectKeys (rs : List Reading) (meta : Catalog) : List String → Option (List Violation)
  | [] => some []
  | sc :: ks =>
    match meta.lookup sc with
    | none => none
    | some e =>
      match detectKeys rs meta ks with
      | none => none
      | some rest =>
        some (detectGroup sc e (rs.filter (fun r => r.sensor_code = sc)) ++ rest)

/-- Embedding of `detect_violations(df, meta)` (src/main.py:172-183).

```python
def detect_violations(df, meta):
    out=[]
    for sc,grp in df.groupby("sensor_code"):
        m=meta[sc]["metadata"]; st=meta[sc]["sensor_type"]
        for ts,v in zip(grp["ts"],grp["value"]):
            if v is None:
                out.append({"sensor_code":sc,"type":"missing","severity":"warning","message":"Missing reading","ts":ts})
            else:
                sev=severity_for(m,v,st)
                if sev!="normal":
                    out.append({"sensor_code":sc,"type":"threshold","severity":sev,"message":f"{sc} breach: {v}","ts":ts})
    return out
```
-/
def detect_violations (rs : List Reading) (meta : Catalog) : Option (List Violation) :=
  detectKeys rs meta (groupKeys rs)

/-- Round-half-to-even to the nearest integer (the rounding mode of Python's
built-in `round`). -/
def roundHalfEven (x : Rat) : Int :=
  let n := Int.floor x
  let frac := x - n
  if frac < 1/2 then n
  else if 1/2 < frac then n + 1
  else if n % 2 = 0 then n else n + 1

/-- Python's `round(x, 3)`: round-half-even at the third decimal place. -/
def pyRound3 (x : Rat) : Rat := (roundHalfEven (x * 1000) : Rat) / 1000

/-- Embedding of `compute_risk(violations)` (src/main.py:185-187).

```python
def compute_risk(violations):
    score=sum(0.1 if v["severity"]=="warning" else 0.35 if v["severity"]=="critical" else 0 for v in violations)
    return min(1,round(score,3)), "High" if score>0.5 else "Medium" if score>0.2 else "Low"
```

Note the source computes the category from the raw (uncapped, unrounded)
`score` variable, while the returned score is `min(1, round(score, 3))`. -/
def compute_risk (violations : List Violation) : Rat × String :=
  let score := (violations.map (fun v =>
    if v.severity = Severity.warning then (1/10 : Rat)
    else if v.severity = Severity.critical then 7/20 else 0)).sum
  (min 1 (pyRound3 score),
   if score > 1/2 then "High" else if score > 1/5 then "Medium" else "Low")

/-- The loop body of `sensor_risk` (src/main.py:190-194), with the running
`risk` accumulator made explicit; a critical classification returns `"High"`
immediately, a warning upgrades the accumulator to `"Medium"`. -/
def sensorRiskAux (meta : Meta) (stype : String) : List (Option Rat) → String → String
  | [], risk => risk
  | v :: vs, risk =>
    let sev := severity_for meta v stype
    if sev = Severity.critical then "High"
    else if sev = Severity.warning then sensorRiskAux meta stype vs "Medium"
    else sensorRiskAux meta stype vs risk

/-- Embedding of `sensor_risk(value_list, meta, stype)` (src/main.py:189-195).

```python
def sensor_risk(value_list, meta, stype):
    risk="Low"
    for v in value_list:
        sev=severity_for(meta, v, stype)
        if sev=="critical": return "High"
        elif sev=="warning": risk="Medium"
    return risk
```
-/
def sensor_risk (value_list : List (Option Rat)) (meta : Meta) (stype : String) : String :=
  sensorRiskAux meta stype value_list "Low"

/-! Reference definitions written from the specification text (§4.1).

These follow the spec's words, to be compared with `severity_for`, which is
the embedding of the source. -/

/-- Spec §4.1, range types: normal iff `low ≤ value ≤ high` (inclusive);
otherwise `distance = value − high` if `value > high` else `low − value`,
critical iff `distance > warning_margin`, else warning. -/
def classify_range_ref (low high margin v : Rat) : Severity :=
  if low ≤ v ∧ v ≤ high then Severity.normal
  else
    let distance := if v > high then v - high else low - v
    if distance > margin then Severity.critical else Severity.warning

/-- Spec §4.1, shock: critical iff `value ≥ spike_threshold` (inclusive),
else normal; no warning tier. -/
def classify_shock_ref (spike v : Rat) : Severity :=
  if v ≥ spike then Severity.critical else Severity.normal

/-- Spec §4.1, battery_voltage: warning iff `value < min_voltage`, else
normal; no critical tier. -/
def classify_battery_ref (minv v : Rat) : Severity :=
  if v < minv then Severity.warning else Severity.normal

/-- Spec §4.1 assembled per sensor type (gps and any other type: always
normal). -/
def classify_spec (stype : String) (low high wm sp mv v : Rat) : Severity :=
  if stype = "core_temperature" ∨ stype = "surface_temperature" ∨ stype = "humidity" then
    classify_range_ref low high wm v
  else if stype = "shock" then classify_shock_ref sp v
  else if stype = "battery_voltage" then classify_battery_ref mv v
  else Severity.normal

/-! Claim C1. -/

/-- Claim C1. For every well-formed threshold set (`ideal_low ≤ ideal_high` and
the `warning_margin` / `spike_threshold` / `min_voltage` keys present),
`severity_for` agrees with the per-type reference classifier of spec §4.1 on
every present value and every sensor type. -/
theorem severity_for_matches_classify_spec (meta : Meta) (stype : String)
    (v wm sp mv : Rat)
    (hlh : meta.ideal_low ≤ meta.ideal_high)
    (hw : meta.warning_margin = some wm)
    (hs : meta.spike_threshold = some sp)
    (hb : meta.min_voltage = some mv) :
    severity_for meta (some v) stype =
      classify_spec stype meta.ideal_low meta.ideal_high wm sp mv v := by
  by_cases hr : stype = "core_temperature" ∨ stype = "surface_temperature" ∨ stype = "humidity"
  · by_cases hout : v < meta.ideal_low ∨ v > meta.ideal_high
    · have hcond : (stype = "core_temperature" ∨ stype = "surface_temperature" ∨
          stype = "humidity") ∧ (v < meta.ideal_low ∨ v > meta.ideal_high) := ⟨hr, hout⟩
      have hnin : ¬ (meta.ideal_low ≤ v ∧ v ≤ meta.ideal_high) := by
        rcases hout with h1 | h1
        · exact fun hc => absurd hc.1 (not_le.mpr h1)
        · exact fun hc => absurd hc.2 (not_le.mpr h1)
      simp only [severity_for, classify_spec, classify_range_ref, if_pos hcond, if_pos hr,
        if_neg hnin, hw, Option.getD_some]
      by_cases hvlow : v < meta.ideal_low
      · have hnhigh : ¬ v > meta.ideal_high :=
          not_lt.mpr (le_of_lt (lt_of_lt_of_le hvlow hlh))
        have habs : |v - meta.ideal_low| = meta.ideal_low - v := by
          rw [abs_of_neg (sub_neg.mpr hvlow), neg_sub]
        simp only [if_pos hvlow, if_neg hnhigh, habs]
      · have hvhigh : v > meta.ideal_high := by
          rcases hout with h1 | h1
          · exact absurd h1 hvlow
          · exact h1
        have habs : |v - meta.ideal_high| = v - meta.ideal_high :=
          abs_of_pos (sub_pos.mpr hvhigh)
        simp only [if_neg hvlow, if_pos hvhigh, habs]
    · have hcond : ¬ ((stype = "core_temperature" ∨ stype = "surface_temperature" ∨
          stype = "humidity") ∧ (v < meta.ideal_low ∨ v > meta.ideal_high)) :=
        fun hc => hout hc.2
      have hin : meta.ideal_low ≤ v ∧ v ≤ meta.ideal_high := by
        push_neg at hout
        exact ⟨hout.1, hout.2⟩
      have hsh : stype ≠ "shock" := by
        rcases hr with h | h | h <;> simp [h]
      have hbv : stype ≠ "battery_voltage" := by
        rcases hr with h | h | h <;> simp [h]
      simp only [severity_for, classify_spec, classify_range_ref, if_pos hr, if_pos hin,
        if_neg hcond, if_neg hsh, if_neg hbv]
  · have hcond : ¬ ((stype = "core_temperature" ∨ stype = "surface_temperature" ∨
        stype = "humidity") ∧ (v < meta.ideal_low ∨ v > meta.ideal_high)) :=
      fun hc => hr hc.1
    simp only [severity_for, classify_spec, classify_shock_ref, classify_battery_ref,
      if_neg hcond, if_neg hr, hs, hb, Option.getD_some]

/-- The `T100` thresholds of `SENSORS_DEF` (src/main.py:44-45), with the
optional keys of the other sensor kinds also filled in. -/
def metaT100 : Meta :=
  { ideal_low := 2, ideal_high := 8, warning_margin := some 1,
    spike_threshold := some 2, min_voltage := some (33/10) }

/-- Witness for C1: the `T100` thresholds at value `21/2 = 10.5`. -/
theorem severity_for_matches_classify_spec_witness :
    severity_for metaT100 (some (21/2)) "core_temperature" =
      classify_spec "core_temperature" metaT100.ideal_low metaT100.ideal_high
        1 2 (33/10) (21/2) :=
  severity_for_matches_classify_spec metaT100 "core_temperature" (21/2) 1 2 (33/10)
    (by norm_num [metaT100]) rfl rfl rfl

/-! Claims C2, C3, C8 — risk aggregation. -/

/-- Spec §4.4 weight function: `weight(warning) = 0.1`, `weight(critical) =
0.35`, any other severity contributes 0. -/
def weight_spec (s : Severity) : Rat :=
  match s with
  | Severity.warning => 1/10
  | Severity.critical => 7/20
  | Severity.normal => 0

/-- Spec §4.4 raw weighted sum over a violation list. -/
def raw_spec (vs : List Violation) : Rat :=
  (vs.map (fun v => weight_spec v.severity)).sum

/-- Spec §4.4 category rule: High iff `score > 0.5`, Medium iff
`0.2 < score ≤ 0.5`, else Low (strict thresholds). -/
def category_of_spec (s : Rat) : String :=
  if s > 1/2 then "High" else if s > 1/5 then "Medium" else "Low"

/-- Each violation's weight in twentieths: warning = 2/20, critical = 7/20. -/
def weightNum : Severity → Nat
  | Severity.warning => 2
  | Severity.critical => 7
  | Severity.normal => 0

theorem weight_spec_eq_weightNum (s : Severity) :
    weight_spec s = (weightNum s : Rat) / 20 := by
  cases s <;> norm_num [weight_spec, weightNum]

theorem raw_spec_eq_num (vs : List Violation) :
    ∃ n : Nat, raw_spec vs = (n : Rat) / 20 := by
  induction vs with
  | nil => exact ⟨0, by simp [raw_spec]⟩
  | cons v tl ih =>
    obtain ⟨n, hn⟩ := ih
    refine ⟨weightNum v.severity + n, ?_⟩
    have hh : raw_spec (v :: tl) = weight_spec v.severity + raw_spec tl := by
      simp [raw_spec]
    rw [hh, hn, weight_spec_eq_weightNum]
    push_cast
    ring

theorem roundHalfEven_intCast (n : Int) : roundHalfEven (n : Rat) = n := by
  have h0 : ((n : Rat) - (Int.floor (n : Rat) : Rat)) = 0 := by
    rw [Int.floor_intCast]; ring
  simp [roundHalfEven, h0]

theorem pyRound3_raw_spec (vs : List Violation) :
    pyRound3 (raw_spec vs) = raw_spec vs := by
  obtain ⟨n, hn⟩ := raw_spec_eq_num vs
  have h1 : raw_spec vs * 1000 = ((50 * (n : Int) : Int) : Rat) := by
    rw [hn]; push_cast; ring
  rw [pyRound3, h1, roundHalfEven_intCast, hn]
  push_cast
  ring

/-- The map inside `compute_risk` is the spec weight function. -/
theorem compute_risk_inline_sum (vs : List Violation) :
    (vs.map (fun v =>
      if v.severity = Severity.warning then (1/10 : Rat)
      else if v.severity = Severity.critical then 7/20 else 0)).sum = raw_spec vs := by
  unfold raw_spec
  congr 1
  apply List.map_congr_left
  intro v _
  cases hsv : v.severity <;> simp [weight_spec, hsv]

/-- Closed form of `compute_risk`: the rounding in `min(1, round(score, 3))`
is the identity on the weighted sums (multiples of 1/20), and the category is
determined by the raw sum through the strict cut-points. -/
theorem compute_risk_eq (vs : List Violation) :
    compute_risk vs = (min 1 (raw_spec vs), category_of_spec (raw_spec vs)) := by
  simp only [compute_risk, category_of_spec, compute_risk_inline_sum, pyRound3_raw_spec]

/-- Claim C2. The score returned by `compute_risk` is `min(1, round(raw, 3))`
for the spec's weighted sum `raw` (warning ↦ 0.1, critical ↦ 0.35, other ↦ 0),
and any violation list whose weighted sum exceeds 1 scores exactly 1. -/
theorem compute_risk_score_spec (vs : List Violation) :
    (compute_risk vs).1 = min 1 (pyRound3 (raw_spec vs)) ∧
    (1 < raw_spec vs → (compute_risk vs).1 = 1) := by
  constructor
  · rw [compute_risk_eq, pyRound3_raw_spec]
  · intro h1
    rw [compute_risk_eq]
    simp only [min_eq_left_iff]
    exact le_of_lt h1

/-- Witness for C2: four critical violations sum to 1.4 > 1 and score
exactly 1. -/
theorem compute_risk_score_spec_witness :
    (compute_risk (List.replicate 4
      (⟨"S50", "threshold", Severity.critical, "m", 0⟩ : Violation))).1 = 1 :=
  (compute_risk_score_spec _).2 (by norm_num [raw_spec, weight_spec, List.replicate])

/-- Claim C3. The category returned by `compute_risk` equals the strict
cut-point rule (High iff `> 0.5`, Medium iff `0.2 < · ≤ 0.5`, else Low)
applied to the returned (capped, rounded) score. -/
theorem compute_risk_category_from_score (vs : List Violation) :
    (compute_risk vs).2 = category_of_spec (compute_risk vs).1 := by
  rw [compute_risk_eq]
  rcases le_or_lt (raw_spec vs) 1 with h1 | h1
  · rw [min_eq_right h1]
  · rw [min_eq_left (le_of_lt h1)]
    have hhi : raw_spec vs > 1/2 := lt_trans (by norm_num) h1
    unfold category_of_spec
    rw [if_pos hhi, if_pos (by norm_num : (1 : Rat) > 1/2)]

/-- Claim C8. `compute_risk` is invariant under permutation of the violation
list: both the score and the category depend only on the multiset of
severities. -/
theorem compute_risk_perm_invariant (vs ws : List Violation) (h : vs.Perm ws) :
    compute_risk vs = compute_risk ws := by
  have hr : raw_spec vs = raw_spec ws := by
    unfold raw_spec
    exact (h.map (fun v => weight_spec v.severity)).sum_eq
  rw [compute_risk_eq, compute_risk_eq, hr]

/-- Witness for C8: swapping a warning and a critical violation leaves the
result unchanged. -/
theorem compute_risk_perm_invariant_witness :
    compute_risk [(⟨"T100", "threshold", Severity.warning, "m1", 0⟩ : Violation),
                  ⟨"S50", "threshold", Severity.critical, "m2", 1⟩] =
    compute_risk [(⟨"S50", "threshold", Severity.critical, "m2", 1⟩ : Violation),
                  ⟨"T100", "threshold", Severity.warning, "m1", 0⟩] :=
  compute_risk_perm_invariant _ _
    (List.Perm.swap (⟨"S50", "threshold", Severity.critical, "m2", 1⟩ : Violation)
      ⟨"T100", "threshold", Severity.warning, "m1", 0⟩ [])

/-! Claims C5, C10 — per-sensor risk. -/

/-- Characterization of the `sensor_risk` loop with an explicit accumulator:
a critical value anywhere forces `"High"`, else a warning anywhere forces
`"Medium"`, else the accumulator is returned. -/
theorem sensorRiskAux_spec (meta : Meta) (stype : String) (vl : List (Option Rat))
    (risk : String) :
    sensorRiskAux meta stype vl risk =
      if ∃ v ∈ vl, severity_for meta v stype = Severity.critical then "High"
      else if ∃ v ∈ vl, severity_for meta v stype = Severity.warning then "Medium"
      else risk := by
  induction vl generalizing risk with
  | nil => simp [sensorRiskAux]
  | cons v vs ih =>
    simp only [sensorRiskAux]
    by_cases hc : severity_for meta v stype = Severity.critical
    · simp [hc]
    · by_cases hw : severity_for meta v stype = Severity.warning
      · rw [if_neg hc, if_pos hw, ih]
        by_cases hcs : ∃ x ∈ vs, severity_for meta x stype = Severity.critical
        · have : ∃ x ∈ v :: vs, severity_for meta x stype = Severity.critical := by
            obtain ⟨x, hx, hxs⟩ := hcs
            exact ⟨x, by simp [hx], hxs⟩
          simp [hcs, this]
        · have hnc : ¬ ∃ x ∈ v :: vs, severity_for meta x stype = Severity.critical := by
            rintro ⟨x, hx, hxs⟩
            rcases List.mem_cons.mp hx with h1 | h1
            · exact hc (h1 ▸ hxs)
            · exact hcs ⟨x, h1, hxs⟩
          have hww : ∃ x ∈ v :: vs, severity_for meta x stype = Severity.warning :=
            ⟨v, by simp, hw⟩
          simp [hcs, hnc, hww, hc, hw]
      · rw [if_neg hc, if_neg hw, ih]
        have hciff : (∃ x ∈ v :: vs, severity_for meta x stype = Severity.critical) ↔
            (∃ x ∈ vs, severity_for meta x stype = Severity.critical) := by
          constructor
          · rintro ⟨x, hx, hxs⟩
            rcases List.mem_cons.mp hx with h1 | h1
            · exact absurd (h1 ▸ hxs) hc
            · exact ⟨x, h1, hxs⟩
          · rintro ⟨x, hx, hxs⟩
            exact ⟨x, by simp [hx], hxs⟩
        have hwiff : (∃ x ∈ v :: vs, severity_for meta x stype = Severity.warning) ↔
            (∃ x ∈ vs, severity_for meta x stype = Severity.warning) := by
          constructor
          · rintro ⟨x, hx, hxs⟩
            rcases List.mem_cons.mp hx with h1 | h1
            · exact absurd (h1 ▸ hxs) hw
            · exact ⟨x, h1, hxs⟩
          · rintro ⟨x, hx, hxs⟩
            exact ⟨x, by simp [hx], hxs⟩
        rw [if_congr hciff rfl (if_congr hwiff rfl rfl)]

/-- Claim C5. `sensor_risk` returns `"High"` iff some value classifies as
critical (since `severity_for` maps an absent value to normal, such a value
is necessarily present), otherwise `"Medium"` iff some value classifies as
warning, otherwise `"Low"`; in particular an empty or all-absent list yields
`"Low"`. -/
theorem sensor_risk_matches_spec (vl : List (Option Rat)) (meta : Meta) (stype : String) :
    sensor_risk vl meta stype =
      if ∃ v ∈ vl, severity_for meta v stype = Severity.critical then "High"
      else if ∃ v ∈ vl, severity_for meta v stype = Severity.warning then "Medium"
      else "Low" :=
  sensorRiskAux_spec meta stype vl "Low"

/-- Claim C10. The classifier maps an absent value to normal for every
threshold set and sensor type (total, no exception), and consequently
`sensor_risk` — which feeds absent values straight into the classifier —
returns the same per-sensor risk as it would on the list with the absent
values filtered out. -/
theorem severity_for_absent_normal (meta : Meta) (stype : String)
    (vl : List (Option Rat)) :
    severity_for meta none stype = Severity.normal ∧
    sensor_risk vl meta stype =
      sensor_risk (vl.filter (fun v => v.isSome)) meta stype := by
  refine ⟨rfl, ?_⟩
  unfold sensor_risk
  rw [sensorRiskAux_spec, sensorRiskAux_spec]
  have hiff : ∀ s : Severity, s ≠ Severity.normal →
      ((∃ v ∈ vl, severity_for meta v stype = s) ↔
       (∃ v ∈ vl.filter (fun v => v.isSome), severity_for meta v stype = s)) := by
    intro s hs
    constructor
    · rintro ⟨v, hv, hsev⟩
      refine ⟨v, List.mem_filter.mpr ⟨hv, ?_⟩, hsev⟩
      cases v with
      | none =>
        rw [show severity_for meta none stype = Severity.normal from rfl] at hsev
        exact absurd hsev.symm hs
      | some x => rfl
    · rintro ⟨v, hv, hsev⟩
      exact ⟨v, (List.mem_filter.mp hv).1, hsev⟩
  rw [if_congr (hiff Severity.critical (by simp)) rfl
    (if_congr (hiff Severity.warning (by simp)) rfl rfl)]

/-! Claims C4, C7, C9 — violation detection. -/

/-- The violations a single reading should contribute according to spec §4.2:
an absent value yields one `missing`/warning violation; a present value that
classifies non-normal yields one `threshold` violation carrying that severity
and a message with the sensor code and raw value; a normal reading yields
nothing.  (The catalog lookup mirrors the resolution the claims presuppose;
the `none` branch is outside the scope of C4's hypothesis.) -/
def expected_violation (meta : Catalog) (r : Reading) : List Violation :=
  match meta.lookup r.sensor_code with
  | none => []
  | some e =>
    match r.value with
    | none => [⟨r.sensor_code, "missing", Severity.warning, "Missing reading", r.ts⟩]
    | some v =>
      let sev := severity_for e.metadata (some v) e.sensor_type
      if sev ≠ Severity.normal then
        [⟨r.sensor_code, "threshold", sev,
          r.sensor_code ++ " breach: " ++ toString v, r.ts⟩]
      else []

theorem mem_insertKey (a s : String) (l : List String) :
    a ∈ insertKey s l ↔ a = s ∨ a ∈ l := by
  induction l with
  | nil => simp [insertKey]
  | cons t ts ih =>
    simp only [insertKey]
    by_cases h : s < t
    · simp [h]
    · simp [h, ih]
      tauto

theorem nodup_insertKey (s : String) (l : List String) (hs : s ∉ l) (h : l.Nodup) :
    (insertKey s l).Nodup := by
  induction l with
  | nil => simp [insertKey]
  | cons t ts ih =>
    simp only [insertKey]
    by_cases hlt : s < t
    · simp [hlt, h, hs]
    · simp only [if_neg hlt, List.nodup_cons, mem_insertKey]
      refine ⟨fun hc => ?_, ih (fun hm => hs (by simp [hm])) h.of_cons⟩
      rcases hc with h1 | h2
      · exact hs (by simp [h1.symm])
      · exact (List.nodup_cons.mp h).1 h2

theorem mem_sortKeys (a : String) (l : List String) : a ∈ sortKeys l ↔ a ∈ l := by
  induction l with
  | nil => simp [sortKeys]
  | cons s ss ih => simp [sortKeys, mem_insertKey, ih]

theorem nodup_sortKeys (l : List String) (h : l.Nodup) : (sortKeys l).Nodup := by
  induction l with
  | nil => simp [sortKeys]
  | cons s ss ih =>
    have hns : s ∉ sortKeys ss := fun hm =>
      (List.nodup_cons.mp h).1 ((mem_sortKeys s ss).mp hm)
    exact nodup_insertKey s (sortKeys ss) hns (ih h.of_cons)

theorem mem_groupKeys (rs : List Reading) (sc : String) :
    sc ∈ groupKeys rs ↔ ∃ r ∈ rs, r.sensor_code = sc := by
  unfold groupKeys
  rw [mem_sortKeys, List.mem_dedup]
  constructor
  · intro h
    obtain ⟨r, hr, hrc⟩ := List.mem_map.mp h
    exact ⟨r, hr, hrc⟩
  · rintro ⟨r, hr, hrc⟩
    exact List.mem_map.mpr ⟨r, hr, hrc⟩

theorem nodup_groupKeys (rs : List Reading) : (groupKeys rs).Nodup :=
  nodup_sortKeys _ (List.nodup_dedup _)

/-- The contribution of one group key to the output of `detect_violations`:
catalog lookup, then the group scan (empty on a failed lookup — that case is
the error path, where `detectKeys` in fact returns `none`). -/
def groupOut (rs : List Reading) (meta : Catalog) (sc : String) : List Violation :=
  match meta.lookup sc with
  | none => []
  | some e => detectGroup sc e (rs.filter (fun r => r.sensor_code = sc))

theorem detectKeys_eq_some (rs : List Reading) (meta : Catalog) (ks : List String)
    (h : ∀ sc ∈ ks, (meta.lookup sc).isSome) :
    detectKeys rs meta ks = some (ks.flatMap (groupOut rs meta)) := by
  induction ks with
  | nil => simp [detectKeys]
  | cons sc ks ih =>
    obtain ⟨e, he⟩ := Option.isSome_iff_exists.mp (h sc (by simp))
    have hrest := ih (fun x hx => h x (by simp [hx]))
    simp [detectKeys, he, hrest, groupOut]

theorem detectKeys_none (rs : List Reading) (meta : Catalog) (ks : List String)
    (sc : String) (hsc : sc ∈ ks) (hm : meta.lookup sc = none) :
    detectKeys rs meta ks = none := by
  induction ks with
  | nil => simp at hsc
  | cons k ks ih =>
    rcases List.mem_cons.mp hsc with h1 | h1
    · subst h1
      simp [detectKeys, hm]
    · cases hk : meta.lookup k with
      | none => simp [detectKeys, hk]
      | some e => simp [detectKeys, hk, ih h1]

theorem detectKeys_some_resolves (rs : List Reading) (meta : Catalog)
    (ks : List String) (out : List Violation)
    (h : detectKeys rs meta ks = some out) :
    ∀ sc ∈ ks, (meta.lookup sc).isSome := by
  intro sc hsc
  cases hm : meta.lookup sc with
  | some e => rfl
  | none =>
    rw [detectKeys_none rs meta ks sc hsc hm] at h
    cases h

/-- On a group whose readings all carry the group's sensor code, the group
scan produces exactly the per-reading expected violations, in reading
order. -/
theorem detectGroup_eq_flatMap (meta : Catalog) (sc : String) (e : CatEntry)
    (he : meta.lookup sc = some e) (grp : List Reading)
    (hall : ∀ r ∈ grp, r.sensor_code = sc) :
    detectGroup sc e grp = grp.flatMap (expected_violation meta) := by
  induction grp with
  | nil => simp [detectGroup]
  | cons r rest ih =>
    have hsc : r.sensor_code = sc := hall r (by simp)
    have hrest := ih (fun x hx => hall x (by simp [hx]))
    cases hv : r.value with
    | none =>
      simp [detectGroup, expected_violation, hv, hsc, he, hrest]
    | some v =>
      by_cases hn : severity_for e.metadata (some v) e.sensor_type = Severity.normal
      · simp [detectGroup, expected_violation, hv, hsc, he, hrest, hn]
      · simp [detectGroup, expected_violation, hv, hsc, he, hrest, hn]

/-- Every violation emitted for a group carries that group's sensor code. -/
theorem detectGroup_code (sc : String) (e : CatEntry) (grp : List Reading)
    (v : Violation) (hv : v ∈ detectGroup sc e grp) : v.sensor_code = sc := by
  induction grp with
  | nil => simp [detectGroup] at hv
  | cons r rest ih =>
    cases hr : r.value with
    | none =>
      have hv2 : v = (⟨sc, "missing", Severity.warning, "Missing reading", r.ts⟩ :
          Violation) ∨ v ∈ detectGroup sc e rest := by
        simpa [detectGroup, hr] using hv
      rcases hv2 with h1 | h1
      · rw [h1]
      · exact ih h1
    | some x =>
      by_cases hn : severity_for e.metadata (some x) e.sensor_type = Severity.normal
      · have hv2 : v ∈ detectGroup sc e rest := by
          simpa [detectGroup, hr, hn] using hv
        exact ih hv2
      · have hv2 : v = (⟨sc, "threshold", severity_for e.metadata (some x) e.sensor_type,
            sc ++ " breach: " ++ toString x, r.ts⟩ : Violation) ∨
            v ∈ detectGroup sc e rest := by
          simpa [detectGroup, hr, hn] using hv
        rcases hv2 with h1 | h1
        · rw [h1]
        · exact ih h1

/-- Concatenating, over a duplicate-free and covering key list, the readings
filtered by each key is a permutation of the original reading list. -/
theorem keys_filter_perm (ks : List String) (rs : List Reading)
    (hnd : ks.Nodup) (hcov : ∀ r ∈ rs, r.sensor_code ∈ ks) :
    (ks.flatMap (fun sc => rs.filter (fun r => r.sensor_code = sc))).Perm rs := by
  induction ks generalizing rs with
  | nil =>
    have hrs : rs = [] := by
      cases rs with
      | nil => rfl
      | cons r rest => exact absurd (hcov r (by simp)) (by simp)
    subst hrs
    exact List.Perm.refl _
  | cons sc ks ih =>
    have hmem : sc ∉ ks := (List.nodup_cons.mp hnd).1
    have hfilter2 : ∀ k ∈ ks,
        rs.filter (fun r => r.sensor_code = k) =
          (rs.filter (fun r => !(r.sensor_code = sc : Bool))).filter
            (fun r => r.sensor_code = k) := by
      intro k hk
      rw [List.filter_filter]
      apply (List.filter_congr ?_).symm
      intro r _
      by_cases hrk : r.sensor_code = k
      · have hknsc : k ≠ sc := fun he => hmem (he ▸ hk)
        have hns : ¬ r.sensor_code = sc := fun hrs => hknsc (hrk.symm.trans hrs)
        simp [hrk, hns, hknsc]
      · simp [hrk]
    have hcongr : ks.flatMap (fun k => rs.filter (fun r => r.sensor_code = k)) =
        ks.flatMap (fun k =>
          (rs.filter (fun r => !(r.sensor_code = sc : Bool))).filter
            (fun r => r.sensor_code = k)) := by
      rw [List.flatMap_def, List.flatMap_def, List.map_congr_left hfilter2]
    have hihp := ih (rs.filter (fun r => !(r.sensor_code = sc : Bool)))
      (List.nodup_cons.mp hnd).2
      (by
        intro r hr
        have h1 := List.mem_filter.mp hr
        have h2 := hcov r h1.1
        rcases List.mem_cons.mp h2 with h3 | h3
        · exact absurd h3 (by simpa using h1.2)
        · exact h3)
    rw [List.flatMap_cons, hcongr]
    exact (List.Perm.append_left _ hihp).trans (List.filter_append_perm _ rs)

/-- Claim C4. When every sensor code of the input resolves in the catalog,
`detect_violations` succeeds and its output is, up to the (per-sensor)
regrouping, exactly one violation per non-normal reading and none for a
normal reading: a permutation of the concatenation, over the readings in
input order, of each reading's expected violations (absent value ↦ one
`missing`/warning violation; present non-normal value ↦ one `threshold`
violation with that severity, the sensor code and the raw value in the
message; normal ↦ none). -/
theorem detect_violations_one_per_nonnormal (rs : List Reading) (meta : Catalog)
    (h : ∀ r ∈ rs, (meta.lookup r.sensor_code).isSome) :
    ∃ out, detect_violations rs meta = some out ∧
      out.Perm (rs.flatMap (expected_violation meta)) := by
  have hkeys : ∀ sc ∈ groupKeys rs, (meta.lookup sc).isSome := by
    intro sc hsc
    obtain ⟨r, hr, hrc⟩ := (mem_groupKeys rs sc).mp hsc
    exact hrc ▸ h r hr
  refine ⟨(groupKeys rs).flatMap (groupOut rs meta),
    detectKeys_eq_some rs meta (groupKeys rs) hkeys, ?_⟩
  have hgroups : (groupKeys rs).flatMap (groupOut rs meta) =
      (groupKeys rs).flatMap (fun sc =>
        (rs.filter (fun r => r.sensor_code = sc)).flatMap (expected_violation meta)) := by
    rw [List.flatMap_def, List.flatMap_def]
    congr 1
    apply List.map_congr_left
    intro sc hsc
    obtain ⟨e, he⟩ := Option.isSome_iff_exists.mp (hkeys sc hsc)
    rw [groupOut, he]
    exact detectGroup_eq_flatMap meta sc e he _
      (fun r hr => by simpa using (List.mem_filter.mp hr).2)
  rw [hgroups, ← List.flatMap_assoc]
  exact List.Perm.flatMap_right (expected_violation meta)
    (keys_filter_perm (groupKeys rs) rs (nodup_groupKeys rs)
      (fun r hr => (mem_groupKeys rs r.sensor_code).mpr ⟨r, hr, rfl⟩))

/-- Shock-sensor metadata used in the detection witnesses (`S50` of
`SENSORS_DEF`, src/main.py:50-51). -/
def metaS50 : Meta := { spike_threshold := some 2 }

/-- One-sensor catalog used in the detection witnesses. -/
def catW : Catalog := [("S50", ⟨"shock", metaS50⟩)]

/-- Readings used in the C4 witness: one spike, one missing, one normal. -/
def rsW4 : List Reading := [⟨"S50", some 3, 0⟩, ⟨"S50", none, 1⟩, ⟨"S50", some 1, 2⟩]

/-- Witness for C4: three shock readings (spike, missing, normal) produce a
successful detection whose output is a permutation of the per-reading
expected violations. -/
theorem detect_violations_one_per_nonnormal_witness :
    ∃ out, detect_violations rsW4 catW = some out ∧
      out.Perm (rsW4.flatMap (expected_violation catW)) :=
  detect_violations_one_per_nonnormal rsW4 catW (by decide)

/-- Claim C7. If some reading's sensor code has no catalog entry,
`detect_violations` fails (the `KeyError` of `meta[sc]`, modelled as `none`)
instead of returning a violation list that silently skips the reading. -/
theorem detect_violations_unknown_sensor (rs : List Reading) (meta : Catalog)
    (r : Reading) (hr : r ∈ rs) (hm : meta.lookup r.sensor_code = none) :
    detect_violations rs meta = none := by
  unfold detect_violations
  exact detectKeys_none rs meta (groupKeys rs) r.sensor_code
    ((mem_groupKeys rs r.sensor_code).mpr ⟨r, hr, rfl⟩) hm

/-- Witness for C7: the code `X99` is absent from the catalog, so detection
fails. -/
theorem detect_violations_unknown_sensor_witness :
    detect_violations [(⟨"X99", some 3, 0⟩ : Reading)] catW = none :=
  detect_violations_unknown_sensor _ _ ⟨"X99", some 3, 0⟩ (by simp) (by decide)

/-- Every violation contributed by one group key carries that key as its
sensor code. -/
theorem groupOut_code (rs : List Reading) (meta : Catalog) (k : String)
    (v : Violation) (hv : v ∈ groupOut rs meta k) : v.sensor_code = k := by
  unfold groupOut at hv
  cases hm : meta.lookup k with
  | none => rw [hm] at hv; simp at hv
  | some e => rw [hm] at hv; exact detectGroup_code k e _ v hv

/-- Filtering a keyed concatenation for one key: with duplicate-free keys,
only that key's block survives. -/
theorem filter_flatMap_single (ks : List String) (g : String → List Violation)
    (p : Violation → Bool) (sc : String) (hnd : ks.Nodup)
    (h0 : ∀ k ∈ ks, k ≠ sc → (g k).filter p = []) :
    (ks.flatMap g).filter p = if sc ∈ ks then (g sc).filter p else [] := by
  induction ks with
  | nil => simp
  | cons k ks ih =>
    have hnd2 := (List.nodup_cons.mp hnd).2
    have hk0 : ∀ x ∈ ks, x ≠ sc → (g x).filter p = [] := fun x hx => h0 x (by simp [hx])
    rw [List.flatMap_cons, List.filter_append, ih hnd2 hk0]
    by_cases hks : k = sc
    · subst hks
      have hnotin : k ∉ ks := (List.nodup_cons.mp hnd).1
      simp [hnotin]
    · have hsk : ¬ sc = k := fun h => hks h.symm
      simp [h0 k (by simp) hks, hsk]

/-- Claim C9. For any successful detection, the violations carrying one
sensor's code appear in the output exactly as the in-order expected
violations of that sensor's readings: per-sensor input (timestamp) order is
preserved, whatever the cross-sensor grouping. -/
theorem detect_violations_sensor_order (rs : List Reading) (meta : Catalog)
    (out : List Violation) (sc : String)
    (h : detect_violations rs meta = some out) :
    out.filter (fun v => v.sensor_code = sc) =
      (rs.filter (fun r => r.sensor_code = sc)).flatMap (expected_violation meta) := by
  unfold detect_violations at h
  have hres := detectKeys_some_resolves rs meta (groupKeys rs) out h
  rw [detectKeys_eq_some rs meta (groupKeys rs) hres] at h
  have hout : (groupKeys rs).flatMap (groupOut rs meta) = out := Option.some.inj h
  subst hout
  have h0 : ∀ k ∈ groupKeys rs, k ≠ sc →
      (groupOut rs meta k).filter (fun v => v.sensor_code = sc) = [] := by
    intro k _ hks
    rw [List.filter_eq_nil_iff]
    intro v hv
    simp [groupOut_code rs meta k v hv, hks]
  rw [filter_flatMap_single (groupKeys rs) (groupOut rs meta) _ sc (nodup_groupKeys rs) h0]
  by_cases hmem : sc ∈ groupKeys rs
  · rw [if_pos hmem]
    obtain ⟨e, he⟩ := Option.isSome_iff_exists.mp (hres sc hmem)
    have hself : (groupOut rs meta sc).filter (fun v => v.sensor_code = sc) =
        groupOut rs meta sc :=
      List.filter_eq_self.mpr (fun v hv => by simp [groupOut_code rs meta sc v hv])
    rw [hself, groupOut, he]
    exact detectGroup_eq_flatMap meta sc e he _
      (fun r hr => by simpa using (List.mem_filter.mp hr).2)
  · rw [if_neg hmem]
    have hnone : rs.filter (fun r => r.sensor_code = sc) = [] := by
      rw [List.filter_eq_nil_iff]
      intro r hr hrc
      exact hmem ((mem_groupKeys rs sc).mpr ⟨r, hr, by simpa using hrc⟩)
    rw [hnone]
    rfl

/-- Readings used in the C9 witness: one missing, one normal shock value. -/
def rsW9 : List Reading := [⟨"S50", none, 0⟩, ⟨"S50", some 1, 1⟩]

/-- Witness for C9 on a concrete detection run. -/
theorem detect_violations_sensor_order_witness :
    ([(⟨"S50", "missing", Severity.warning, "Missing reading", 0⟩ : Violation)].filter
        (fun v => v.sensor_code = "S50")) =
      (rsW9.filter (fun r => r.sensor_code = "S50")).flatMap (expected_violation catW) :=
  detect_violations_sensor_order rsW9 catW _ "S50" (by rfl)

/-! Claim C6 — non-finite values. -/

/-- An IEEE-style numeric value: a finite number or NaN.  Python readings are
floats, so a reading can be NaN; every ordering comparison involving NaN is
false. -/
inductive FVal
  | fin (q : Rat)
  | nan
deriving DecidableEq, Repr

/-- IEEE `a < b`: false when either side is NaN. -/
def fltB : FVal → FVal → Bool
  | FVal.fin a, FVal.fin b => a < b
  | _, _ => false

/-- IEEE `a > b`: false when either side is NaN. -/
def fgtB : FVal → FVal → Bool
  | FVal.fin a, FVal.fin b => b < a
  | _, _ => false

/-- IEEE `a ≥ b`: false when either side is NaN. -/
def fgeB : FVal → FVal → Bool
  | FVal.fin a, FVal.fin b => b ≤ a
  | _, _ => false

/-- NaN-propagating subtraction. -/
def fsub : FVal → FVal → FVal
  | FVal.fin a, FVal.fin b => FVal.fin (a - b)
  | _, _ => FVal.nan

/-- NaN-propagating absolute value. -/
def fabs : FVal → FVal
  | FVal.fin a => FVal.fin |a|
  | FVal.nan => FVal.nan

/-- `severity_for` (src/main.py:162-170) re-read over IEEE-style values: the
same comparisons as `severity_for`, with the float comparison semantics made
explicit so the behaviour on a NaN reading can be evaluated. -/
def severity_for_ieee (meta : Meta) (value : Option FVal) (stype : String) : Severity :=
  match value with
  | none => Severity.normal
  | some v =>
    if (stype = "core_temperature" ∨ stype = "surface_temperature" ∨ stype = "humidity")
        ∧ (fltB v (FVal.fin meta.ideal_low) ∨ fgtB v (FVal.fin meta.ideal_high)) then
      if fgtB (fabs (fsub v (if fltB v (FVal.fin meta.ideal_low) then FVal.fin meta.ideal_low
          else FVal.fin meta.ideal_high))) (FVal.fin (meta.warning_margin.getD 1))
      then Severity.critical else Severity.warning
    else if stype = "shock" then
      if fgeB v (FVal.fin (meta.spike_threshold.getD 2)) then Severity.critical
      else Severity.normal
    else if stype = "battery_voltage" then
      if fltB v (FVal.fin (meta.min_voltage.getD (33/10))) then Severity.warning
      else Severity.normal
    else Severity.normal

/-- Claim C6, evaluated at the failing input.  Under the float comparison
semantics of the source, a NaN reading classifies as `normal` both for a
range-type sensor and for a shock sensor: every comparison against NaN is
false, so control falls through to `normal` — not the most severe outcome
that spec §7 requires for non-finite values. -/
theorem severity_for_ieee_nan_normal :
    severity_for_ieee metaT100 (some FVal.nan) "core_temperature" = Severity.normal ∧
    severity_for_ieee metaS50 (some FVal.nan) "shock" = Severity.normal :=
  ⟨rfl, rfl⟩

end ColdChain
